import Mathlib

/-!
Verification of the cpp-arg-parser library (src/include/arg_parser.hpp,
src/src/arg_parser.cpp) against its natural-language specification.

The C++ data structures and member functions are shallowly embedded as
Lean definitions: `std::map<arg_key, arg_opt>` becomes a sorted
association list (sorted by the source's `arg_key::operator<`, so that
`std::find_if` scans in the same order), `std::set<arg_key>` becomes a
sorted duplicate-free list, `std::unordered_map<std::string, arg_group>`
becomes an association list, and functions that throw become
`Except`-valued functions.
-/

/-- Models `enum class ArgumentType` (arg_parser.hpp lines 19-27). -/
inductive ArgumentType where
  | BOOL
  | INT
  | HEX
  | FLT
  | STR
deriving DecidableEq, Repr

/-- Models `enum class ArgumentOption` (arg_parser.hpp lines 29-33). -/
inductive ArgumentOption where
  | REQUIRED
  | OPTIONAL
  | INHERIT_GROUP
deriving DecidableEq, Repr

/-- Models `struct arg_key` (arg_parser.hpp lines 39-109): a composite
search key made of a short and a long option name. -/
structure ArgKey where
  shr : String
  lng : String
deriving DecidableEq, Repr

/-- Lexicographic comparison of character lists by code point: the
comparison `std::string::operator<` performs (identically for the ASCII
option names the parser deals in). -/
def charListLt : List Char → List Char → Bool
  | [], [] => false
  | [], _ :: _ => true
  | _ :: _, [] => false
  | a :: as, b :: bs =>
    if a.toNat < b.toNat then true
    else if b.toNat < a.toNat then false
    else charListLt as bs

/-- `std::string` less-than on the underlying characters. -/
def strLt (s t : String) : Bool := charListLt s.data t.data

/-- Models `arg_key::operator<` (arg_parser.hpp lines 87-93): true when
the short name is smaller, or the short names agree and the long name is
smaller. This is the ordering `std::map<arg_key, arg_opt>` uses. -/
def keyLt (a b : ArgKey) : Bool :=
  strLt a.shr b.shr || (a.shr == b.shr && strLt a.lng b.lng)

/-- Models `struct arg_opt` (arg_parser.hpp lines 114-154). -/
structure ArgOpt where
  value : String
  type : ArgumentType
  is_set : Bool
  has_default : Bool
  desc : String
deriving DecidableEq, Repr

/-- Models the `arg_opt(v, t, d, def)` constructor (arg_parser.hpp lines
133-139) applied to `arg_default` (lines 191-194): when a default value
is supplied, `value` is the default string and both `is_set` and
`has_default` are true; otherwise `value` is empty and both flags are
false. -/
def mkArgOpt (dv : Option String) (ty : ArgumentType) (d : String) : ArgOpt :=
  { value := dv.getD "", type := ty, is_set := dv.isSome, has_default := dv.isSome, desc := d }

/-- Models `struct arg_pos` (arg_parser.hpp lines 159-189). -/
structure ArgPos where
  value : String
  name : String
deriving DecidableEq, Repr

/-- Models `struct arg_group` (arg_parser.hpp lines 196-209): a
`std::set<arg_key>` of members plus the `mandatory_` flag. The member
list is kept sorted and duplicate-free by `keyInsert`, mirroring the
`std::set`. -/
structure ArgGroup where
  mandatory : Bool
  members : List ArgKey
deriving DecidableEq, Repr

/-- Models the state of `class ArgumentParser` (arg_parser.hpp lines
214-469). `options` is sorted by `keyLt` (the `std::map` order) so that
linear scans visit entries in the same order as the source. -/
structure ArgumentParser where
  exec_name : String
  positional : List ArgPos
  options : List (ArgKey × ArgOpt)
  mandatory : List ArgKey
  mtx_groups : List (String × ArgGroup)
  prog_desc : String
  usage : String
deriving DecidableEq, Repr

/-- Models `std::set<arg_key>::emplace` / insertion into a sorted
container ordered by `keyLt`: insert `k` at its sorted position unless an
equal key is already present. -/
def keyInsert : List ArgKey → ArgKey → List ArgKey
  | [], k => [k]
  | k' :: r, k =>
    if keyLt k k' then k :: k' :: r
    else if k = k' then k' :: r
    else k' :: keyInsert r k

/-- Models `std::map<arg_key, arg_opt>::emplace` (used at
arg_parser.cpp line 47): insert at the sorted position; the Bool is the
`.second` of the returned pair, false when an equal key already exists
(in which case the map is unchanged). -/
def mapEmplace : List (ArgKey × ArgOpt) → ArgKey → ArgOpt → List (ArgKey × ArgOpt) × Bool
  | [], k, v => ([(k, v)], true)
  | (k', v') :: rest, k, v =>
    if keyLt k k' then ((k, v) :: (k', v') :: rest, true)
    else if k = k' then ((k', v') :: rest, false)
    else
      let r := mapEmplace rest k v
      ((k', v') :: r.1, r.2)

/-- Models the `std::find_if` scans over `options_` (arg_parser.cpp
lines 166-169, arg_parser.hpp lines 250-256, 352-358, 394-400): the
first entry, in map order, whose short or long name equals `name`. -/
def findOptionByName (opts : List (ArgKey × ArgOpt)) (name : String) :
    Option (ArgKey × ArgOpt) :=
  opts.find? (fun ko => ko.1.shr == name || ko.1.lng == name)

/-- Models `options_.at(k)` (arg_parser.cpp lines 100, 114, 127) for a
key known to be registered. The source member `at` throws
`std::out_of_range` on a missing key; every state reached through the
public interface keeps `mandatory_` and the group members inside the
option map (see `wf`), so the default returned on the `none` branch is
never consulted in the theorems, which assume `wf`. -/
def optAt (p : ArgumentParser) (k : ArgKey) : ArgOpt :=
  match p.options.find? (fun ko => ko.1 == k) with
  | some ko => ko.2
  | none => { value := "", type := .BOOL, is_set := false, has_default := false, desc := "" }

/-- Well-formedness of a parser state: every mandatory key and every
group member names a registered option, so every `options_.at` call in
the validator succeeds. -/
def wf (p : ArgumentParser) : Bool :=
  p.mandatory.all (fun k => (p.options.find? (fun ko => ko.1 == k)).isSome) &&
  p.mtx_groups.all (fun g => g.2.members.all
    (fun k => (p.options.find? (fun ko => ko.1 == k)).isSome))

/-- Models `ArgumentParser::option_is_set` by name (arg_parser.hpp lines
333-337): `has_option(key) && opt->second.is_set`; the conjunction
short-circuits, so the option record is only read when the lookup
succeeded. -/
def option_is_set (p : ArgumentParser) (name : String) : Bool :=
  match findOptionByName p.options name with
  | some ko => ko.2.is_set
  | none => false

/-- Models `ArgumentParser::option_is_mutually_exclusive_`
(arg_parser.hpp lines 229-238): `std::any_of` over the groups, testing
`group.second.find(ak) != group.second.end()`. -/
def option_is_mutually_exclusive (p : ArgumentParser) (ak : ArgKey) : Bool :=
  p.mtx_groups.any (fun g => g.2.members.any (fun m => m == ak))

/-- Models `ArgumentParser::add_mutually_exclusive_group`
(arg_parser.hpp lines 308-310): `mtx_groups_.emplace(...)` fails when the
name exists. -/
def add_mutually_exclusive_group (p : ArgumentParser) (grp_name : String)
    (required : Bool) : ArgumentParser × Bool :=
  if (p.mtx_groups.find? (fun g => g.1 == grp_name)).isSome then (p, false)
  else ({ p with mtx_groups := p.mtx_groups ++ [(grp_name, ⟨required, []⟩)] }, true)

/-- Models `ArgumentParser::insert_into_group` (arg_parser.hpp lines
312-319): when the group exists, emplace the key into its member set and
return true; otherwise return false. -/
def insert_into_group (p : ArgumentParser) (grp_name : String) (ak : ArgKey) :
    ArgumentParser × Bool :=
  if (p.mtx_groups.find? (fun g => g.1 == grp_name)).isSome then
    ({ p with mtx_groups := p.mtx_groups.map (fun g =>
        if g.1 == grp_name then (g.1, { g.2 with members := keyInsert g.2.members ak }) else g) },
     true)
  else (p, false)

/-- Looks up a group by name, as `mtx_groups_.find` (arg_parser.cpp
lines 60, 75). -/
def groupFind (p : ArgumentParser) (grp_name : String) : Option (String × ArgGroup) :=
  p.mtx_groups.find? (fun g => g.1 == grp_name)

/-- The `mandatory()` flag of the named group, false when the group does
not exist (the source only reads the flag after a successful find). -/
def groupMandatory (p : ArgumentParser) (grp_name : String) : Bool :=
  match groupFind p grp_name with
  | some g => g.2.mandatory
  | none => false

/-- Models `grp.make_mandatory()` (arg_parser.cpp line 66 with
arg_parser.hpp lines 206-208) on the group named `grp_name`. -/
def groupMakeMandatory (p : ArgumentParser) (grp_name : String) : ArgumentParser :=
  { p with mtx_groups := p.mtx_groups.map (fun g =>
      if g.1 == grp_name then (g.1, { g.2 with mandatory := true }) else g) }

/-- Models arg_parser.cpp lines 54-57: `make_option_mandatory_(ak)` runs
when the option is explicitly REQUIRED. -/
def regMandStep (p1 : ArgumentParser) (ak : ArgKey) (opt : ArgumentOption) :
    ArgumentParser :=
  if opt = .REQUIRED then { p1 with mandatory := keyInsert p1.mandatory ak } else p1

/-- Models arg_parser.cpp lines 60-74, entered when the named group
exists: a REQUIRED option makes the group mandatory (line 66); a
mandatory group puts the key into `mandatory_` (lines 70-72, with the
source's redundant second disjunct kept as written); finally the key is
inserted into the group (line 74), whose return value (true, since the
group exists) is the call's result. -/
def regGroupStep (p2 : ArgumentParser) (ak : ArgKey) (opt : ArgumentOption)
    (excl_group : String) : ArgumentParser × Bool :=
  let p3 := if opt = .REQUIRED then groupMakeMandatory p2 excl_group else p2
  let p4 :=
    if groupMandatory p3 excl_group = true ∨
       (opt = .INHERIT_GROUP ∧ groupMandatory p3 excl_group = true) then
      { p3 with mandatory := keyInsert p3.mandatory ak }
    else p3
  insert_into_group p4 excl_group ak

/-- Models `ArgumentParser::register_option` (arg_parser.cpp lines
29-82), step for step: reject an empty key; reject INHERIT_GROUP with an
empty group name; emplace the option (failing on a duplicate key); run
`regMandStep`; then, when a group is named: if it exists, run
`regGroupStep`; if it does not exist, return false (note: on this path
the option emplaced at line 47 and the `mandatory_` update from line 56
are NOT rolled back). -/
def registerOption (p : ArgumentParser) (ak : ArgKey) (opt : ArgumentOption)
    (ty : ArgumentType) (d : String) (excl_group : String) (dv : Option String) :
    ArgumentParser × Bool :=
  if ak.shr = "" ∧ ak.lng = "" then (p, false)
  else if opt = .INHERIT_GROUP ∧ excl_group = "" then (p, false)
  else
    let em := mapEmplace p.options ak (mkArgOpt dv ty d)
    if em.2 = false then (p, false)
    else
      let p2 := regMandStep { p with options := em.1 } ak opt
      if excl_group ≠ "" ∧ groupFind p2 excl_group ≠ none then
        regGroupStep p2 ak opt excl_group
      else if excl_group ≠ "" then (p2, false)
      else (p2, true)

/-- Models `ArgumentParser::register_positional` (arg_parser.cpp lines
84-93): append `count` empty slots, slot `i` named `names[i]` when
present, else `ARG_<i+1>`. -/
def register_positional (p : ArgumentParser) (count : Nat) (names : List String) :
    ArgumentParser :=
  let slots := (List.range count).map
    (fun i => ({ value := "", name := names.getD i ("ARG_" ++ toString (i + 1)) } : ArgPos))
  { p with positional := p.positional ++ slots }

/-- A parser with no state at all, before the constructor body runs. -/
def emptyParser (d u : String) : ArgumentParser :=
  { exec_name := "", positional := [], options := [], mandatory := [],
    mtx_groups := [], prog_desc := d, usage := u }

/-- Models the `ArgumentParser` constructor (arg_parser.cpp lines
17-27): it registers the implicit `{"h", "help"}` BOOL option. -/
def mkParser (d u : String) : ArgumentParser :=
  (registerOption (emptyParser d u) ⟨"h", "help"⟩ .OPTIONAL .BOOL
    "Show help text and exit" "" none).1

/-- `ArgumentParser()` with default-empty description and usage. -/
def freshParser : ArgumentParser := mkParser "" ""

deriving instance DecidableEq for Except

/-- The errors `load_arguments` can raise (all `std::logic_error` /
`std::out_of_range` throws in arg_parser.cpp lines 135-249). -/
inductive LoadError where
  | parse
  | outOfRange
  | required (missingOpts : List ArgKey) (missingGrps : List String)
  | conflict (grps : List String)
  | missingPositional
deriving DecidableEq, Repr

/-- The running state of the binder loop in `load_arguments`
(arg_parser.cpp lines 161-188): the parser being mutated, the `opt`
iterator (`none` models `options_.end()`, `some k` an iterator to the
entry with key `k`), and the positional cursor `pos`. -/
structure BindState where
  parser : ArgumentParser
  pending : Option ArgKey
  pos : Nat
deriving DecidableEq, Repr

/-- Updates the option stored under key `k` (what writing through the
`opt` iterator does; keys in the map are unique). -/
def setOpt (p : ArgumentParser) (k : ArgKey) (f : ArgOpt → ArgOpt) : ArgumentParser :=
  { p with options := p.options.map (fun ko => if ko.1 == k then (ko.1, f ko.2) else ko) }

/-- Models `A.substr(A.find_first_not_of('-'))` (arg_parser.cpp line
165): drop the leading run of `-` characters. When the token consists
solely of dashes, `find_first_not_of` returns `npos` and `substr(npos)`
throws `std::out_of_range`; that is the `none` result. -/
def stripDashes (A : String) : Option String :=
  if A.data.dropWhile (fun c => c == '-') = [] then none
  else some (String.mk (A.data.dropWhile (fun c => c == '-')))

/-- True when the token's first character is `'-'`; models
`A[0] == '-' || A.substr(0, 2) == "--"` (arg_parser.cpp lines 164, 176;
the second disjunct implies the first, and `A[0]` of an empty
`std::string` is the null character, so an empty token tests false). -/
def dashToken (A : String) : Bool :=
  A.data.take 1 = ['-'] || A.data.take 2 = ['-', '-']

/-- Writes value `v` into positional slot `i` (arg_parser.cpp line 182,
`positional_[pos++].value = A`). An index past the end is an
out-of-bounds `std::vector::operator[]` access in the source (undefined
behavior); the model leaves the list unchanged there, and the cursor
increment that accompanies this write in `bindStep` happens regardless. -/
def setSlot : List ArgPos → Nat → String → List ArgPos
  | [], _, _ => []
  | a :: r, 0, v => { a with value := v } :: r
  | a :: r, n + 1, v => a :: setSlot r n v

/-- Models one iteration of the binder loop of
`ArgumentParser::load_arguments` (arg_parser.cpp lines 163-188) on token
`A`:
* a token starting with `-` while no positional has been written is
  dash-stripped and looked up; a hit sets `is_set` and becomes the
  pending option unless its type is BOOL; on a miss the source reads
  `opt->second.type` through the end iterator (undefined behavior), but
  both outcomes of that comparison leave `opt == options_.end()`, so the
  model records no pending option;
* a token not starting with `-` is stored as the pending option's value,
  or, with no pending option, written to the next positional slot when
  the slot vector is non-empty (`positional_.capacity()` in the source;
  capacity is non-zero exactly when slots were registered, since the
  vector only ever grows);
* a token starting with `-` after a positional was written raises the
  parse error. -/
def bindStep (s : BindState) (A : String) : Except LoadError BindState :=
  if dashToken A ∧ s.pos = 0 then
    match stripDashes A with
    | none => .error .outOfRange
    | some opt_key =>
      match findOptionByName s.parser.options opt_key with
      | some (k, o) =>
        .ok { s with parser := setOpt s.parser k (fun x => { x with is_set := true }),
                     pending := if o.type = .BOOL then none else some k }
      | none => .ok { s with pending := none }
  else if ¬ dashToken A then
    match s.pending with
    | some k =>
      .ok { s with parser := setOpt s.parser k (fun x => { x with value := A }),
                   pending := none }
    | none =>
      if s.parser.positional = [] then .ok s
      else
        .ok { s with parser := { s.parser with positional := setSlot s.parser.positional s.pos A },
                     pos := s.pos + 1 }
  else .error .parse

/-- Runs `bindStep` over the whole token list, stopping at the first
error (a C++ throw aborts the loop). -/
def bindList (s : BindState) : List String → Except LoadError BindState
  | [] => .ok s
  | A :: rest =>
    match bindStep s A with
    | .error e => .error e
    | .ok s' => bindList s' rest

/-- Models the executable-name preprocessing of `load_arguments`
(arg_parser.cpp lines 141-154): keep everything after the last `/`. -/
def extractExecName (s : String) : String :=
  String.mk ((s.data.reverse.takeWhile (fun c => !(c == '/'))).reverse)

/-- The binder phase of `load_arguments` (arg_parser.cpp lines 135-188):
store the executable name, then bind `argv[1..]`. -/
def bindPhase (p : ArgumentParser) (argv : List String) : Except LoadError BindState :=
  bindList { parser := { p with exec_name := extractExecName (argv.headD "") },
             pending := none, pos := 0 } (argv.drop 1)

/-- Models `ArgumentParser::check_mandatory_options_` (arg_parser.cpp
lines 95-106): the mandatory keys that are in no mutually-exclusive
group and whose option is not set. -/
def check_mandatory_options (p : ArgumentParser) : List ArgKey :=
  p.mandatory.filter
    (fun M => !(option_is_mutually_exclusive p M) && !(optAt p M).is_set)

/-- Models `ArgumentParser::check_mandatory_option_groups_`
(arg_parser.cpp lines 108-121): the names of mandatory groups none of
whose members is set. -/
def check_mandatory_option_groups (p : ArgumentParser) : List String :=
  (p.mtx_groups.filter
    (fun G => G.2.mandatory && G.2.members.all (fun k => !(optAt p k).is_set))).map (fun G => G.1)

/-- Models `ArgumentParser::check_option_conflicts_` (arg_parser.cpp
lines 123-133): the names of groups with more than one member set. -/
def check_option_conflicts (p : ArgumentParser) : List String :=
  (p.mtx_groups.filter
    (fun G => decide (1 < (G.2.members.filter (fun k => (optAt p k).is_set)).length))).map
    (fun G => G.1)

/-- Models the validation phase of `load_arguments` (arg_parser.cpp
lines 190-248): everything is skipped when `option_is_set("help")`;
otherwise the missing-required-options and missing-required-groups
diagnostics are combined into `err_str` and thrown together when either
is non-empty; only then are conflicts thrown; only after that, a cursor
short of the slot count raises the missing-positionals error. -/
def runValidator (p : ArgumentParser) (pos : Nat) : Except LoadError ArgumentParser :=
  if option_is_set p "help" then .ok p
  else
    let ma := check_mandatory_options p
    let mg := check_mandatory_option_groups p
    let co := check_option_conflicts p
    if ma ≠ [] ∨ mg ≠ [] then .error (.required ma mg)
    else if co ≠ [] then .error (.conflict co)
    else if pos < p.positional.length then .error .missingPositional
    else .ok p

/-- Models `ArgumentParser::load_arguments` (arg_parser.cpp lines
135-249): the binder phase followed by the validator. -/
def load_arguments (p : ArgumentParser) (argv : List String) :
    Except LoadError ArgumentParser :=
  match bindPhase p argv with
  | .error e => .error e
  | .ok s => runValidator s.parser s.pos

/-- The errors the typed accessors can raise (arg_parser.hpp lines
392-451): a conversion failure carrying the stream contents, or the
positional index check. -/
inductive AccessError where
  | conversion (msg : String)
  | indexRange
deriving DecidableEq, Repr

/-- `std::isspace` for the default locale, as skipped by formatted
stream extraction. -/
def isWsB (c : Char) : Bool :=
  c == ' ' || c == '\t' || c == '\n' || c == '\r' || c == '\x0b' || c == '\x0c'

/-- Decimal digit test. -/
def isDecDigitB (c : Char) : Bool := '0' ≤ c && c ≤ '9'

/-- Hexadecimal digit test. -/
def isHexDigitB (c : Char) : Bool :=
  isDecDigitB c || ('a' ≤ c && c ≤ 'f') || ('A' ≤ c && c ≤ 'F')

/-- Numeric value of a (decimal or hexadecimal) digit character. -/
def digitValN (c : Char) : Nat :=
  if isDecDigitB c then c.toNat - '0'.toNat
  else if 'a' ≤ c && c ≤ 'f' then c.toNat - 'a'.toNat + 10
  else if 'A' ≤ c && c ≤ 'F' then c.toNat - 'A'.toNat + 10
  else 0

/-- Value of a digit string in the given base (Horner fold, as
`strtoll` accumulates). -/
def digitsValN (base : Nat) (ds : List Char) : Nat :=
  ds.foldl (fun a c => base * a + digitValN c) 0

/-- Models `strtoll`'s optional `0x`/`0X` prefix handling in base 16:
the prefix is consumed only when a hexadecimal digit follows (otherwise
`strtoll` parses just the leading `0`). -/
def dropHex0x (cs : List Char) : List Char :=
  match cs with
  | c0 :: c1 :: d :: r =>
    if c0 == '0' && (c1 == 'x' || c1 == 'X') && isHexDigitB d then d :: r else cs
  | _ => cs

/-- Models the digit-consuming part of `operator>>` into an integer:
after the optional hex prefix, take the longest run of digits of the
base; no digits at all is an extraction failure (`none`). -/
def extractMag (hexBase : Bool) (cs : List Char) : Option Nat :=
  let cs2 := if hexBase then dropHex0x cs else cs
  let ds := cs2.takeWhile (fun c => if hexBase then isHexDigitB c else isDecDigitB c)
  if ds = [] then none else some (digitsValN (if hexBase then 16 else 10) ds)

/-- Models `std::stringstream >> opt_val` for an integer target
(arg_parser.hpp lines 402-419): skip leading whitespace, accept an
optional sign, then digits in base 10, or base 16 when the stream is in
`std::hex` mode. `none` is the failed extraction (failbit; since C++11
the target is set to 0). The model keeps the value unbounded; the
claims under verification only exercise values far below `INT_MAX`. -/
def extractInt (hexBase : Bool) (s : String) : Option Int :=
  match s.data.dropWhile isWsB with
  | [] => none
  | c :: r =>
    if c == '-' then (extractMag hexBase r).map (fun n => -(n : Int))
    else if c == '+' then (extractMag hexBase r).map (fun n => (n : Int))
    else (extractMag hexBase (c :: r)).map (fun n => (n : Int))

/-- Models `ArgumentParser::parse_option<T>` (arg_parser.hpp lines
392-423) instantiated at an integer target `T`:
* option resolved by `std::find_if` over short/long names;
* not found or not `is_set`: return `T()`, that is 0;
* declared BOOL: `opt_val = val->second.is_set`, which is `true` (1)
  on this path;
* declared HEX: extract in base 16 with NO failure check (`ss >> opt_val`
  at line 413 is not tested), so a failed extraction yields the 0 that
  C++11 extraction writes on failure;
* otherwise: extract in base 10 and throw the conversion error carrying
  `ss.str()` (the stored value string) on failure. -/
def parse_option_int (p : ArgumentParser) (opt : String) : Except AccessError Int :=
  match findOptionByName p.options opt with
  | some (_, o) =>
    if o.is_set then
      match o.type with
      | .BOOL => .ok 1
      | .HEX => .ok ((extractInt true o.value).getD 0)
      | _ =>
        match extractInt false o.value with
        | some n => .ok n
        | none =>
          .error (.conversion ("Cannot convert option to given type. (" ++ o.value ++ ")"))
    else .ok 0
  | none => .ok 0

/-- The `(value, ok)` result of `std::stringstream >> bool` with the
default `noboolalpha` flags: the text is extracted as an integer; 0 and
1 store themselves, any other number stores `true` with failbit, and a
failed numeric extraction stores nothing usable (failbit). -/
def boolOfExtract (r : Option Int) : Bool × Bool :=
  match r with
  | some 0 => (false, true)
  | some 1 => (true, true)
  | some _ => (true, false)
  | none => (false, false)

/-- Models `ArgumentParser::parse_option<bool>` (arg_parser.hpp lines
392-423): as `parse_option_int`, but the BOOL arm returns `is_set`
itself, and the other arms run boolean stream extraction. -/
def parse_option_bool (p : ArgumentParser) (opt : String) : Except AccessError Bool :=
  match findOptionByName p.options opt with
  | some (_, o) =>
    if o.is_set then
      match o.type with
      | .BOOL => .ok o.is_set
      | .HEX => .ok (boolOfExtract (extractInt true o.value)).1
      | _ =>
        let r := boolOfExtract (extractInt false o.value)
        if r.2 then .ok r.1
        else .error (.conversion ("Cannot convert option to given type. (" ++ o.value ++ ")"))
    else .ok false
  | none => .ok false

/-- Models `ArgumentParser::parse_positional<T>` (arg_parser.hpp lines
435-451) at an integer target: the index guard
`idx > (int)(positional_.size() - 1) || idx < 0` rejects any index
outside `[0, size)` (for the empty vector, `size() - 1` wraps and the
cast yields -1, so every non-negative index is rejected too); then the
slot's value is extracted in base 10, and failure throws the conversion
error whose message carries the index and the stream contents. -/
def parse_positional_int (p : ArgumentParser) (idx : Int) : Except AccessError Int :=
  if idx < 0 ∨ (p.positional.length : Int) ≤ idx then .error .indexRange
  else
    let v := ((p.positional.get? idx.toNat).map (fun a => a.value)).getD ""
    match extractInt false v with
    | some n => .ok n
    | none =>
      .error (.conversion
        ("Cannot convert positional " ++ toString idx ++ " to given type. (" ++ v ++ ")"))

/-! Helper lemmas about the container models. -/

theorem mem_keyInsert_self (l : List ArgKey) (k : ArgKey) : k ∈ keyInsert l k := by
  induction l with
  | nil => simp [keyInsert]
  | cons k' r ih =>
    unfold keyInsert
    split_ifs with h1 h2
    · exact List.mem_cons_self _ _
    · exact h2 ▸ List.mem_cons_self _ _
    · exact List.mem_cons_of_mem _ ih

theorem mem_keyInsert_of_mem {l : List ArgKey} {a : ArgKey} (k : ArgKey)
    (h : a ∈ l) : a ∈ keyInsert l k := by
  induction l with
  | nil => cases h
  | cons k' r ih =>
    unfold keyInsert
    split_ifs with h1 h2
    · exact List.mem_cons_of_mem _ h
    · exact h
    · rcases List.mem_cons.mp h with h' | h'
      · exact h' ▸ List.mem_cons_self _ _
      · exact List.mem_cons_of_mem _ (ih h')

theorem mapEmplace_false {l : List (ArgKey × ArgOpt)} {k : ArgKey} {v : ArgOpt}
    (h : (mapEmplace l k v).2 = false) : (mapEmplace l k v).1 = l := by
  induction l with
  | nil => simp [mapEmplace] at h
  | cons x rest ih =>
    obtain ⟨k', v'⟩ := x
    by_cases h1 : keyLt k k' = true
    · simp [mapEmplace, h1] at h
    · by_cases h2 : k = k'
      · subst h2
        simp [mapEmplace, h1]
      · have h' : (mapEmplace rest k v).2 = false := by
          simpa [mapEmplace, h1, h2] using h
        simp [mapEmplace, h1, h2, ih h']

theorem find?_map_fst {α : Type} (l : List (String × α)) (f : String × α → String × α)
    (hf : ∀ x, (f x).1 = x.1) (g : String) :
    (l.map f).find? (fun x => x.1 == g) = (l.find? (fun x => x.1 == g)).map f := by
  induction l with
  | nil => rfl
  | cons x t ih =>
    by_cases hx : (x.1 == g) = true
    · simp [List.find?_cons, hf, hx]
    · simp only [List.map_cons, List.find?_cons, hf, hx]
      simpa [hf, hx] using ih

theorem groupMakeMandatory_self (p : ArgumentParser) (g : String)
    (h : groupFind p g ≠ none) : groupMandatory (groupMakeMandatory p g) g = true := by
  obtain ⟨y, hy⟩ := Option.ne_none_iff_exists'.mp h
  have hy' : List.find? (fun x => x.1 == g) p.mtx_groups = some y := hy
  have hpred := List.find?_some hy'
  unfold groupMandatory groupFind groupMakeMandatory
  rw [find?_map_fst p.mtx_groups _ (fun x => by dsimp only; split <;> rfl) g, hy']
  have hpe : y.1 = g := by simpa using hpred
  simp [hpe]

theorem groupMandatory_insert_into_group (p : ArgumentParser) (g : String) (ak : ArgKey)
    (g' : String) :
    groupMandatory (insert_into_group p g ak).1 g' = groupMandatory p g' := by
  unfold insert_into_group
  split
  · unfold groupMandatory groupFind
    rw [find?_map_fst p.mtx_groups _ (fun x => by dsimp only; split <;> rfl) g']
    cases hfind : List.find? (fun x => x.1 == g') p.mtx_groups with
    | none => simp
    | some y =>
      simp only [Option.map_some']
      split <;> rfl
  · rfl

theorem insert_into_group_mandatory (p : ArgumentParser) (g : String) (ak : ArgKey) :
    (insert_into_group p g ak).1.mandatory = p.mandatory := by
  unfold insert_into_group
  split <;> rfl

theorem insert_into_group_options (p : ArgumentParser) (g : String) (ak : ArgKey) :
    (insert_into_group p g ak).1.options = p.options := by
  unfold insert_into_group
  split <;> rfl

theorem groupFind_makeMandatory_ne_none (p : ArgumentParser) (g g' : String)
    (h : groupFind p g' ≠ none) : groupFind (groupMakeMandatory p g) g' ≠ none := by
  obtain ⟨y, hy⟩ := Option.ne_none_iff_exists'.mp h
  have hy' : List.find? (fun x => x.1 == g') p.mtx_groups = some y := hy
  unfold groupFind groupMakeMandatory
  rw [find?_map_fst p.mtx_groups _ (fun x => by dsimp only; split <;> rfl) g', hy']
  simp

theorem insert_into_group_snd (p : ArgumentParser) (g : String) (ak : ArgKey)
    (h : groupFind p g ≠ none) : (insert_into_group p g ak).2 = true := by
  have hs : (List.find? (fun x => x.1 == g) p.mtx_groups).isSome = true :=
    Option.ne_none_iff_isSome.mp h
  unfold insert_into_group
  rw [if_pos hs]

theorem groupFind_eq_of_mtx_eq {p q : ArgumentParser} (g : String)
    (h : p.mtx_groups = q.mtx_groups) : groupFind p g = groupFind q g := by
  unfold groupFind
  rw [h]

/-! Claim C1 -/

/-- Claim C1 counterexample: the claim quantifies over every token that
begins with `-` and whose dash-stripped name matches no registered
option. The token `--` (stripped name `""`, which matches neither name
of the implicit help option) satisfies that, yet `load_arguments` raises:
`find_first_not_of('-')` returns `npos` and `substr(npos)` throws
`std::out_of_range`, so the claim's "does not raise an error" is false. -/
theorem c1_counterexample :
    findOptionByName freshParser.options "" = none
    ∧ load_arguments freshParser ["prog", "--"] = .error .outOfRange := by
  decide

/-- Claim C1 (amended): in a binder state where no positional has been
written, a token that begins with `-`, still contains at least one
non-dash character, and whose dash-stripped name matches no registered
option's short or long name is consumed without raising and without
touching any option or positional slot; only the pending-option iterator
is reset. (Tokens made solely of dashes are excluded: on those the source
throws `std::out_of_range` from `substr(npos)`.) -/
theorem c1_unknown_option_noop (s : BindState) (A : String)
    (hpos : s.pos = 0)
    (hdash : A.data.take 1 = ['-'])
    (hrest : A.data.dropWhile (fun c => c == '-') ≠ [])
    (hfind : findOptionByName s.parser.options
        (String.mk (A.data.dropWhile (fun c => c == '-'))) = none) :
    bindStep s A = .ok { s with pending := none } := by
  have hd : dashToken A = true := by
    unfold dashToken
    rw [hdash]
    simp
  have hs : stripDashes A = some (String.mk (A.data.dropWhile (fun c => c == '-'))) := by
    unfold stripDashes
    rw [if_neg hrest]
  unfold bindStep
  rw [if_pos ⟨hd, hpos⟩, hs]
  dsimp only
  rw [hfind]

theorem c1_unknown_option_noop_witness :
    bindStep { parser := freshParser, pending := none, pos := 0 } "--nope"
      = .ok { parser := freshParser, pending := none, pos := 0 } :=
  c1_unknown_option_noop { parser := freshParser, pending := none, pos := 0 } "--nope"
    rfl (by decide) (by decide) (by decide)

/-! Claim C2 -/

/-- Claim C2 evidence: the source guards the positional write only by
`positional_.capacity()` and then runs `positional_[pos++].value = A`
with no bound check (arg_parser.cpp lines 181-182). With one registered
slot and the two positional tokens `x`, `y`, the cursor ends at 2,
strictly greater than the slot count 1, contradicting "the cursor never
exceeds the slot count"; the write for `y` went past the end of the
vector (undefined behavior in the source; the model drops it). -/
theorem c2_cursor_overrun :
    (bindPhase (register_positional freshParser 1 []) ["prog", "x", "y"]).toOption.map
        (fun s => s.pos) = some 2
    ∧ (register_positional freshParser 1 []).positional.length = 1 := by
  decide

theorem regMandStep_mtx (p1 : ArgumentParser) (ak : ArgKey) (opt : ArgumentOption) :
    (regMandStep p1 ak opt).mtx_groups = p1.mtx_groups := by
  unfold regMandStep
  split <;> rfl

theorem regMandStep_options (p1 : ArgumentParser) (ak : ArgKey) (opt : ArgumentOption) :
    (regMandStep p1 ak opt).options = p1.options := by
  unfold regMandStep
  split <;> rfl

theorem regMandStep_positional (p1 : ArgumentParser) (ak : ArgKey) (opt : ArgumentOption) :
    (regMandStep p1 ak opt).positional = p1.positional := by
  unfold regMandStep
  split <;> rfl

theorem regMandStep_mandatory (p1 : ArgumentParser) (ak : ArgKey) (opt : ArgumentOption) :
    (regMandStep p1 ak opt).mandatory
      = if opt = .REQUIRED then keyInsert p1.mandatory ak else p1.mandatory := by
  by_cases h : opt = .REQUIRED <;> simp [regMandStep, h]

theorem regGroupStep_snd (p2 : ArgumentParser) (ak : ArgKey) (opt : ArgumentOption)
    (g : String) (h : groupFind p2 g ≠ none) : (regGroupStep p2 ak opt g).2 = true := by
  simp only [regGroupStep]
  apply insert_into_group_snd
  split
  · have h3 : groupFind (groupMakeMandatory p2 g) g ≠ none :=
      groupFind_makeMandatory_ne_none p2 g g h
    split
    · intro hc
      exact h3 (by rw [groupFind_eq_of_mtx_eq g rfl] at hc; exact hc)
    · exact h3
  · split
    · intro hc
      exact h (by rw [groupFind_eq_of_mtx_eq g rfl] at hc; exact hc)
    · exact h

/-! Claim C3 -/

/-- Claim C3 counterexample: registering a REQUIRED option into a
non-existent group returns false, yet the parser state HAS changed:
`options_.emplace` (arg_parser.cpp line 47) and the `make_option_mandatory_`
call (line 56) run before the group-existence check at line 75, and are
not rolled back. -/
theorem c3_counterexample :
    (registerOption freshParser ⟨"a", ""⟩ .REQUIRED .BOOL "" "nosuch" none).2 = false
    ∧ (registerOption freshParser ⟨"a", ""⟩ .REQUIRED .BOOL "" "nosuch" none).1 ≠ freshParser
    ∧ ⟨"a", ""⟩ ∈ (registerOption freshParser ⟨"a", ""⟩ .REQUIRED .BOOL "" "nosuch" none).1.mandatory
    ∧ findOptionByName
        (registerOption freshParser ⟨"a", ""⟩ .REQUIRED .BOOL "" "nosuch" none).1.options "a"
      ≠ none := by
  decide

/-- Claim C3 (amended): when `register_option` returns false because the
key is empty on both names, because INHERIT_GROUP comes with an empty
group, or because the key is already registered, the parser state is
unchanged, and no failure path ever modifies a group; but when it
returns false because a non-empty group name names no existing group,
the option has already been inserted into the option map and, exactly
when the requirement was REQUIRED, the key has already been added to the
required set. -/
theorem c3_failure_state (p : ArgumentParser) (ak : ArgKey) (opt : ArgumentOption)
    (ty : ArgumentType) (d excl_group : String) (dv : Option String)
    (h : (registerOption p ak opt ty d excl_group dv).2 = false) :
    (registerOption p ak opt ty d excl_group dv).1.mtx_groups = p.mtx_groups
    ∧ ((ak.shr = "" ∧ ak.lng = "") ∨ (opt = .INHERIT_GROUP ∧ excl_group = "")
        ∨ (mapEmplace p.options ak (mkArgOpt dv ty d)).2 = false →
        (registerOption p ak opt ty d excl_group dv).1 = p)
    ∧ (¬(ak.shr = "" ∧ ak.lng = "") → ¬(opt = .INHERIT_GROUP ∧ excl_group = "")
        → (mapEmplace p.options ak (mkArgOpt dv ty d)).2 ≠ false →
        excl_group ≠ "" ∧ groupFind p excl_group = none
        ∧ (registerOption p ak opt ty d excl_group dv).1.options
            = (mapEmplace p.options ak (mkArgOpt dv ty d)).1
        ∧ (registerOption p ak opt ty d excl_group dv).1.mandatory
            = (if opt = .REQUIRED then keyInsert p.mandatory ak else p.mandatory)) := by
  by_cases h1 : ak.shr = "" ∧ ak.lng = ""
  · refine ⟨by simp [registerOption, h1], fun _ => by simp [registerOption, h1],
      fun hc _ _ => absurd h1 hc⟩
  · by_cases h2 : opt = .INHERIT_GROUP ∧ excl_group = ""
    · refine ⟨by simp [registerOption, h1, h2], fun _ => by simp [registerOption, h1, h2],
        fun _ hc _ => absurd h2 hc⟩
    · by_cases h3 : (mapEmplace p.options ak (mkArgOpt dv ty d)).2 = false
      · refine ⟨by simp [registerOption, h1, h2, h3],
          fun _ => by simp [registerOption, h1, h2, h3],
          fun _ _ hc => absurd h3 hc⟩
      · have hgfp2 : groupFind
            (regMandStep { p with options := (mapEmplace p.options ak (mkArgOpt dv ty d)).1 }
              ak opt) excl_group = groupFind p excl_group :=
          groupFind_eq_of_mtx_eq excl_group (regMandStep_mtx _ _ _)
        by_cases h5 : groupFind p excl_group = none
        · by_cases h4 : excl_group = ""
          · exfalso
            have hv : (registerOption p ak opt ty d excl_group dv).2 = true := by
              simp only [registerOption]
              rw [if_neg h1, if_neg h2, if_neg h3, if_neg (fun hc => hc.1 h4),
                if_neg (fun hne => hne h4)]
            rw [hv] at h
            cases h
          · have hnand : ¬(excl_group ≠ "" ∧
                groupFind (regMandStep
                  { p with options := (mapEmplace p.options ak (mkArgOpt dv ty d)).1 } ak opt)
                  excl_group ≠ none) := fun hc => hc.2 (hgfp2.trans h5)
            have hres : registerOption p ak opt ty d excl_group dv
                = (regMandStep
                    { p with options := (mapEmplace p.options ak (mkArgOpt dv ty d)).1 } ak opt,
                   false) := by
              simp only [registerOption]
              rw [if_neg h1, if_neg h2, if_neg h3, if_neg hnand, if_pos h4]
            refine ⟨by rw [hres]; exact regMandStep_mtx _ _ _, ?_, ?_⟩
            · rintro (hc | hc | hc)
              · exact absurd hc h1
              · exact absurd hc h2
              · exact absurd hc h3
            · refine fun _ _ _ => ⟨h4, h5, by rw [hres]; exact regMandStep_options _ _ _,
                by rw [hres]; exact regMandStep_mandatory _ _ _⟩
        · exfalso
          by_cases h4 : excl_group = ""
          · have hv : (registerOption p ak opt ty d excl_group dv).2 = true := by
              simp only [registerOption]
              rw [if_neg h1, if_neg h2, if_neg h3, if_neg (fun hc => hc.1 h4),
                if_neg (fun hne => hne h4)]
            rw [hv] at h
            cases h
          · have hv : (registerOption p ak opt ty d excl_group dv).2 = true := by
              simp only [registerOption]
              rw [if_neg h1, if_neg h2, if_neg h3,
                if_pos ⟨h4, fun hc => h5 (hgfp2.symm.trans hc)⟩]
              exact regGroupStep_snd _ _ _ _ (fun hc => h5 (hgfp2.symm.trans hc))
            rw [hv] at h
            cases h

theorem c3_failure_state_witness :
    (registerOption freshParser ⟨"", ""⟩ .OPTIONAL .BOOL "" "" none).1 = freshParser
    ∧ (registerOption freshParser ⟨"b", ""⟩ .REQUIRED .BOOL "" "nosuch" none).1.mtx_groups
        = freshParser.mtx_groups
    ∧ (registerOption freshParser ⟨"b", ""⟩ .REQUIRED .BOOL "" "nosuch" none).1.mandatory
        = keyInsert freshParser.mandatory ⟨"b", ""⟩ := by
  refine ⟨(c3_failure_state freshParser ⟨"", ""⟩ .OPTIONAL .BOOL "" "" none
      (by decide)).2.1 (Or.inl (by decide)), ?_, ?_⟩
  · exact (c3_failure_state freshParser ⟨"b", ""⟩ .REQUIRED .BOOL "" "nosuch" none (by decide)).1
  · have h := ((c3_failure_state freshParser ⟨"b", ""⟩ .REQUIRED .BOOL "" "nosuch" none
      (by decide)).2.2 (by decide) (by decide) (by decide)).2.2.2
    rw [h]
    decide

/-! Claim C4 -/

/-- Claim C4: when `option_is_set("help")` reports false after binding,
the validator raises in this fixed order (arg_parser.cpp lines 190-248):
the missing-required-options and missing-required-groups lists are
combined into one aggregated diagnostic thrown first whenever either is
non-empty; the conflicting-options diagnostic is thrown only when both
required-side lists are empty; and the insufficient-positionals error, a
distinct error, is thrown only after all of the above are empty. -/
theorem c4_validator_order (p : ArgumentParser) (pos : Nat)
    (hwf : wf p = true) (hhelp : option_is_set p "help" = false) :
    (check_mandatory_options p ≠ [] ∨ check_mandatory_option_groups p ≠ [] →
      runValidator p pos
        = .error (.required (check_mandatory_options p) (check_mandatory_option_groups p)))
    ∧ (check_mandatory_options p = [] → check_mandatory_option_groups p = [] →
        check_option_conflicts p ≠ [] →
        runValidator p pos = .error (.conflict (check_option_conflicts p)))
    ∧ (check_mandatory_options p = [] → check_mandatory_option_groups p = [] →
        check_option_conflicts p = [] → pos < p.positional.length →
        runValidator p pos = .error .missingPositional) := by
  refine ⟨fun hor => ?_, fun hma hmg hco => ?_, fun hma hmg hco hpos => ?_⟩
  · simp only [runValidator]
    rw [hhelp]
    simp only [Bool.false_eq_true, if_false]
    rw [if_pos hor]
  · simp only [runValidator]
    rw [hhelp]
    simp only [Bool.false_eq_true, if_false]
    rw [if_neg (fun hor => hor.elim (fun hne => hne hma) (fun hne => hne hmg)), if_pos hco]
  · simp only [runValidator]
    rw [hhelp]
    simp only [Bool.false_eq_true, if_false]
    rw [if_neg (fun hor => hor.elim (fun hne => hne hma) (fun hne => hne hmg)),
      if_neg (fun hne => hne hco), if_pos hpos]

/-- A schema with one unset REQUIRED option `-r`, used to exercise the
validator and the missing-required check on a concrete state. -/
def reqSchema : ArgumentParser :=
  (registerOption freshParser ⟨"r", ""⟩ .REQUIRED .BOOL "" "" none).1

theorem c4_validator_order_witness :
    runValidator reqSchema 0 = .error (.required [⟨"r", ""⟩] []) := by
  have h := (c4_validator_order reqSchema 0 (by decide) (by decide)).1 (Or.inl (by decide))
  rw [h]
  decide

/-! Claim C5 -/

/-- A schema in which a second option `("a", "help")` shadows the
implicit help option in every by-name lookup of `"help"` (its key sorts
before `("h", "help")` in the option map), plus an unset REQUIRED
option. -/
def c5Schema : ArgumentParser :=
  (registerOption (registerOption freshParser ⟨"a", "help"⟩ .OPTIONAL .BOOL "" "" none).1
    ⟨"r", ""⟩ .REQUIRED .BOOL "" "" none).1

/-- Claim C5 counterexample: after binding `-h`, the help option (the
implicitly registered `("h","help")`) IS set, yet `load_arguments`
raises the missing-required error: the validator's guard is the by-name
lookup `option_is_set("help")`, which resolves to the earlier-sorted
option `("a","help")` that is not set. -/
theorem c5_counterexample :
    (bindPhase c5Schema ["prog", "-h"]).toOption.map
        (fun s => (optAt s.parser ⟨"h", "help"⟩).is_set) = some true
    ∧ load_arguments c5Schema ["prog", "-h"] = .error (.required [⟨"r", ""⟩] []) := by
  decide

/-- Claim C5 (amended): if after binding the by-name lookup
`option_is_set("help")` — which resolves to the first option in map
order whose short or long name is `help`, and hence to the implicit help
option whenever no other registered option uses the name `help` —
reports set, then `load_arguments` raises no error: the whole validator,
including the missing-positionals check, is skipped. -/
theorem c5_help_skips_validation (p : ArgumentParser) (argv : List String) (s : BindState)
    (hbind : bindPhase p argv = .ok s)
    (hhelp : option_is_set s.parser "help" = true) :
    load_arguments p argv = .ok s.parser := by
  unfold load_arguments
  rw [hbind]
  simp only [runValidator]
  rw [hhelp, if_pos rfl]

/-- The state the binder reaches on `./prog --help` with the fresh
parser: the help option set, nothing else touched. -/
def helpOptSet : ArgOpt :=
  { value := "", type := .BOOL, is_set := true, has_default := false,
    desc := "Show help text and exit" }

def c5WitnessState : BindState where
  parser :=
    { exec_name := "prog", positional := [], options := [(⟨"h", "help"⟩, helpOptSet)],
      mandatory := [], mtx_groups := [], prog_desc := "", usage := "" }
  pending := none
  pos := 0

theorem c5_help_skips_validation_witness :
    load_arguments freshParser ["prog", "--help"] = .ok c5WitnessState.parser :=
  c5_help_skips_validation freshParser ["prog", "--help"] c5WitnessState
    (by decide) (by decide)

/-! Claim C6 -/

/-- Claim C6: `check_mandatory_options_` collects exactly the keys that
are in the required set, belong to no mutually-exclusive group
(`option_is_mutually_exclusive_` is false), and whose option is not
`is_set`; in particular a key that is a member of any group is never
reported by this check. -/
theorem c6_missing_required_members (p : ArgumentParser) (hwf : wf p = true) (k : ArgKey) :
    (k ∈ check_mandatory_options p ↔
      k ∈ p.mandatory ∧ option_is_mutually_exclusive p k = false ∧ (optAt p k).is_set = false)
    ∧ (k ∈ check_mandatory_options p → ∀ g ∈ p.mtx_groups, k ∉ g.2.members) := by
  have hiff : k ∈ check_mandatory_options p ↔
      k ∈ p.mandatory ∧ option_is_mutually_exclusive p k = false
        ∧ (optAt p k).is_set = false := by
    unfold check_mandatory_options
    rw [List.mem_filter]
    constructor
    · rintro ⟨hm, hp⟩
      simp only [Bool.and_eq_true, Bool.not_eq_true'] at hp
      exact ⟨hm, hp.1, hp.2⟩
    · rintro ⟨hm, h1, h2⟩
      refine ⟨hm, ?_⟩
      simp [h1, h2]
  refine ⟨hiff, fun hk g hg hmem => ?_⟩
  have hfalse : option_is_mutually_exclusive p k = false := (hiff.mp hk).2.1
  unfold option_is_mutually_exclusive at hfalse
  rw [List.any_eq_false] at hfalse
  exact hfalse g hg (by rw [List.any_eq_true]; exact ⟨k, hmem, by simp⟩)

theorem c6_missing_required_members_witness :
    ⟨"r", ""⟩ ∈ check_mandatory_options reqSchema :=
  ((c6_missing_required_members reqSchema (by decide) ⟨"r", ""⟩).1).mpr
    ⟨by decide, by decide, by decide⟩

/-! Auxiliary facts about `regGroupStep` used for claim C7. -/

theorem groupMandatory_set_mandatory (q : ArgumentParser) (m : List ArgKey) (g : String) :
    groupMandatory { q with mandatory := m } g = groupMandatory q g := rfl

theorem regGroupStep_groupMandatory (p2 : ArgumentParser) (ak : ArgKey)
    (opt : ArgumentOption) (g : String) (hg : groupFind p2 g ≠ none) :
    groupMandatory (regGroupStep p2 ak opt g).1 g
      = (if opt = .REQUIRED then true else groupMandatory p2 g) := by
  simp only [regGroupStep]
  rw [groupMandatory_insert_into_group]
  by_cases hreq : opt = .REQUIRED
  · simp only [if_pos hreq]
    have hm := groupMakeMandatory_self p2 g hg
    rw [if_pos (Or.inl hm), groupMandatory_set_mandatory]
    exact hm
  · simp only [if_neg hreq]
    split
    · rw [groupMandatory_set_mandatory]
    · rfl

theorem regGroupStep_mem_mandatory_of_mem (p2 : ArgumentParser) (ak : ArgKey)
    (opt : ArgumentOption) (g : String) {a : ArgKey} (h : a ∈ p2.mandatory) :
    a ∈ (regGroupStep p2 ak opt g).1.mandatory := by
  simp only [regGroupStep]
  rw [insert_into_group_mandatory]
  by_cases hreq : opt = .REQUIRED
  · simp only [if_pos hreq]
    split
    · exact mem_keyInsert_of_mem ak h
    · exact h
  · simp only [if_neg hreq]
    split
    · exact mem_keyInsert_of_mem ak h
    · exact h

theorem regGroupStep_mem_of_flag (p2 : ArgumentParser) (ak : ArgKey)
    (opt : ArgumentOption) (g : String) (hreq : ¬opt = .REQUIRED)
    (hflag : groupMandatory p2 g = true) :
    ak ∈ (regGroupStep p2 ak opt g).1.mandatory := by
  simp only [regGroupStep]
  rw [insert_into_group_mandatory]
  simp only [if_neg hreq]
  rw [if_pos (Or.inl hflag)]
  exact mem_keyInsert_self _ _

/-! Claim C7 -/

/-- Claim C7: on every successful `register_option` call, (a) a REQUIRED
requirement puts the key into the required set and, when a group is
named, makes that group mandatory; and (b) whenever the named group ends
up mandatory after the registration, the key is in the required set even
when the requirement was only INHERIT_GROUP (or OPTIONAL). -/
theorem c7_required_registration (p : ArgumentParser) (ak : ArgKey) (opt : ArgumentOption)
    (ty : ArgumentType) (d excl_group : String) (dv : Option String)
    (h : (registerOption p ak opt ty d excl_group dv).2 = true) :
    (opt = .REQUIRED →
      ak ∈ (registerOption p ak opt ty d excl_group dv).1.mandatory
      ∧ (excl_group ≠ "" →
          groupMandatory (registerOption p ak opt ty d excl_group dv).1 excl_group = true))
    ∧ (excl_group ≠ "" →
        groupMandatory (registerOption p ak opt ty d excl_group dv).1 excl_group = true →
        ak ∈ (registerOption p ak opt ty d excl_group dv).1.mandatory) := by
  by_cases h1 : ak.shr = "" ∧ ak.lng = ""
  · exfalso
    simp [registerOption, h1] at h
  by_cases h2 : opt = .INHERIT_GROUP ∧ excl_group = ""
  · exfalso
    simp [registerOption, h1, h2] at h
  by_cases h3 : (mapEmplace p.options ak (mkArgOpt dv ty d)).2 = false
  · exfalso
    simp [registerOption, h1, h2, h3] at h
  have hgfp2 : groupFind
      (regMandStep { p with options := (mapEmplace p.options ak (mkArgOpt dv ty d)).1 }
        ak opt) excl_group = groupFind p excl_group :=
    groupFind_eq_of_mtx_eq excl_group (regMandStep_mtx _ _ _)
  by_cases h4 : excl_group = ""
  · have hnand : ¬(excl_group ≠ "" ∧
        groupFind (regMandStep
          { p with options := (mapEmplace p.options ak (mkArgOpt dv ty d)).1 } ak opt)
          excl_group ≠ none) := fun hc => hc.1 h4
    have hres : registerOption p ak opt ty d excl_group dv
        = (regMandStep
            { p with options := (mapEmplace p.options ak (mkArgOpt dv ty d)).1 } ak opt,
           true) := by
      simp only [registerOption]
      rw [if_neg h1, if_neg h2, if_neg h3, if_neg hnand, if_neg (fun hne => hne h4)]
    rw [hres]
    refine ⟨fun hreq => ⟨?_, fun hne => absurd h4 hne⟩, fun hne => absurd h4 hne⟩
    show ak ∈ (regMandStep _ ak opt).mandatory
    rw [regMandStep_mandatory, if_pos hreq]
    exact mem_keyInsert_self _ _
  · by_cases h5 : groupFind p excl_group = none
    · exfalso
      have hnand : ¬(excl_group ≠ "" ∧
          groupFind (regMandStep
            { p with options := (mapEmplace p.options ak (mkArgOpt dv ty d)).1 } ak opt)
            excl_group ≠ none) := fun hc => hc.2 (hgfp2.trans h5)
      have hres : (registerOption p ak opt ty d excl_group dv).2 = false := by
        simp only [registerOption]
        rw [if_neg h1, if_neg h2, if_neg h3, if_neg hnand, if_pos h4]
      rw [hres] at h
      cases h
    · have hfind2 : groupFind
          (regMandStep { p with options := (mapEmplace p.options ak (mkArgOpt dv ty d)).1 }
            ak opt) excl_group ≠ none := fun hc => h5 (hgfp2.symm.trans hc)
      have hres : registerOption p ak opt ty d excl_group dv
          = regGroupStep
              (regMandStep { p with options := (mapEmplace p.options ak (mkArgOpt dv ty d)).1 }
                ak opt) ak opt excl_group := by
        simp only [registerOption]
        rw [if_neg h1, if_neg h2, if_neg h3, if_pos ⟨h4, hfind2⟩]
      rw [hres]
      constructor
      · intro hreq
        constructor
        · apply regGroupStep_mem_mandatory_of_mem
          rw [regMandStep_mandatory, if_pos hreq]
          exact mem_keyInsert_self _ _
        · intro _
          rw [regGroupStep_groupMandatory _ _ _ _ hfind2, if_pos hreq]
      · intro _ hflag
        by_cases hreq : opt = .REQUIRED
        · apply regGroupStep_mem_mandatory_of_mem
          rw [regMandStep_mandatory, if_pos hreq]
          exact mem_keyInsert_self _ _
        · have hflag2 : groupMandatory
              (regMandStep { p with options := (mapEmplace p.options ak (mkArgOpt dv ty d)).1 }
                ak opt) excl_group = true := by
            rw [regGroupStep_groupMandatory _ _ _ _ hfind2, if_neg hreq] at hflag
            exact hflag
          exact regGroupStep_mem_of_flag _ _ _ _ hreq hflag2

/-- Two concrete registrations exercising claim C7: a REQUIRED option
registered into an initially optional group `g`, and an INHERIT_GROUP
option registered into an initially mandatory group `m`. -/
def c7SchemaA : ArgumentParser × Bool :=
  registerOption (add_mutually_exclusive_group freshParser "g" false).1
    ⟨"a", ""⟩ .REQUIRED .BOOL "" "g" none

def c7SchemaB : ArgumentParser × Bool :=
  registerOption (add_mutually_exclusive_group freshParser "m" true).1
    ⟨"b", ""⟩ .INHERIT_GROUP .BOOL "" "m" none

theorem c7_required_registration_witness :
    ⟨"a", ""⟩ ∈ c7SchemaA.1.mandatory
    ∧ groupMandatory c7SchemaA.1 "g" = true
    ∧ ⟨"b", ""⟩ ∈ c7SchemaB.1.mandatory := by
  refine ⟨?_, ?_, ?_⟩
  · exact ((c7_required_registration (add_mutually_exclusive_group freshParser "g" false).1
      ⟨"a", ""⟩ .REQUIRED .BOOL "" "g" none (by decide)).1 rfl).1
  · exact ((c7_required_registration (add_mutually_exclusive_group freshParser "g" false).1
      ⟨"a", ""⟩ .REQUIRED .BOOL "" "g" none (by decide)).1 rfl).2 (by decide)
  · exact (c7_required_registration (add_mutually_exclusive_group freshParser "m" true).1
      ⟨"b", ""⟩ .INHERIT_GROUP .BOOL "" "m" none (by decide)).2 (by decide) (by decide)

/-! Claim C8 -/

/-- A schema with one REQUIRED HEX option `--hex`. -/
def hexSchema : ArgumentParser :=
  (registerOption freshParser ⟨"", "hex"⟩ .REQUIRED .HEX "" "" none).1

/-- The parser state after `./prog --hex zz`. -/
def hexLoadedBad : ArgumentParser :=
  (load_arguments hexSchema ["prog", "--hex", "zz"]).toOption.getD freshParser

/-- Claim C8 counterexample: the stored value `zz` of a resolved, set
HEX option cannot be converted as base-16, yet `parse_option` raises no
error and returns 0: the HEX arm at arg_parser.hpp lines 411-414 never
tests the extraction (`ss >> opt_val` is unchecked), unlike the default
arm at lines 415-418. -/
theorem c8_counterexample :
    (optAt hexLoadedBad ⟨"", "hex"⟩).is_set = true
    ∧ (optAt hexLoadedBad ⟨"", "hex"⟩).value = "zz"
    ∧ extractInt true "zz" = none
    ∧ parse_option_int hexLoadedBad "hex" = .ok 0 := by
  decide

/-- Claim C8 (amended): for a resolved, set option whose declared type
is neither BOOL nor HEX, a stored value that cannot be converted makes
`parse_option` raise the structured error carrying the offending string;
`parse_positional` does the same for every in-range slot, its message
carrying the index and the offending string; but for declared type HEX
the extraction is unchecked, so an unconvertible value raises nothing
and yields the 0 that C++11 stream extraction writes on failure. -/
theorem c8_conversion_failure :
    (∀ (p : ArgumentParser) (name : String) (k : ArgKey) (o : ArgOpt),
      findOptionByName p.options name = some (k, o) → o.is_set = true →
      o.type ≠ .BOOL → o.type ≠ .HEX → extractInt false o.value = none →
      parse_option_int p name
        = .error (.conversion ("Cannot convert option to given type. (" ++ o.value ++ ")")))
    ∧ (∀ (p : ArgumentParser) (name : String) (k : ArgKey) (o : ArgOpt),
      findOptionByName p.options name = some (k, o) → o.is_set = true →
      o.type = .HEX → extractInt true o.value = none →
      parse_option_int p name = .ok 0)
    ∧ (∀ (p : ArgumentParser) (idx : Int) (slot : ArgPos),
      0 ≤ idx → p.positional.get? idx.toNat = some slot →
      extractInt false slot.value = none →
      parse_positional_int p idx
        = .error (.conversion
            ("Cannot convert positional " ++ toString idx ++ " to given type. ("
              ++ slot.value ++ ")"))) := by
  refine ⟨?_, ?_, ?_⟩
  · intro p name k o hfind hset hb hh hext
    unfold parse_option_int
    rw [hfind]
    dsimp only
    rw [hset, if_pos rfl]
    cases hty : o.type
    · exact absurd hty hb
    · dsimp only
      rw [hext]
    · exact absurd hty hh
    · dsimp only
      rw [hext]
    · dsimp only
      rw [hext]
  · intro p name k o hfind hset hty hext
    unfold parse_option_int
    rw [hfind]
    dsimp only
    rw [hset, if_pos rfl, hty]
    dsimp only
    rw [hext]
    rfl
  · intro p idx slot hnneg hget hext
    have hlt : idx.toNat < p.positional.length := by
      by_contra hcon
      push_neg at hcon
      rw [← List.get?_eq_none] at hcon
      rw [hcon] at hget
      cases hget
    unfold parse_positional_int
    rw [if_neg ?hbound]
    case hbound =>
      rintro (hneg | hge)
      · omega
      · omega
    simp only [hget, Option.map_some', Option.getD_some]
    rw [hext]

/-- A schema with one REQUIRED INT option `--int`. -/
def intSchema : ArgumentParser :=
  (registerOption freshParser ⟨"", "int"⟩ .REQUIRED .INT "" "" none).1

/-- The parser state after `./prog --int abc`. -/
def intLoadedBad : ArgumentParser :=
  (load_arguments intSchema ["prog", "--int", "abc"]).toOption.getD freshParser

/-- A schema with one positional slot. -/
def posSchema : ArgumentParser := register_positional freshParser 1 []

/-- The parser state after `./prog xyz`. -/
def posLoadedBad : ArgumentParser :=
  (load_arguments posSchema ["prog", "xyz"]).toOption.getD freshParser

theorem c8_conversion_failure_witness :
    parse_option_int intLoadedBad "int"
      = .error (.conversion "Cannot convert option to given type. (abc)")
    ∧ parse_option_int hexLoadedBad "hex" = .ok 0
    ∧ parse_positional_int posLoadedBad 0
      = .error (.conversion "Cannot convert positional 0 to given type. (xyz)") := by
  refine ⟨?_, ?_, ?_⟩
  · have h := c8_conversion_failure.1 intLoadedBad "int" ⟨"", "int"⟩
      ⟨"abc", .INT, true, false, ""⟩ (by decide) rfl (by decide) (by decide) (by decide)
    rw [h]
    decide
  · exact c8_conversion_failure.2.1 hexLoadedBad "hex" ⟨"", "hex"⟩
      ⟨"zz", .HEX, true, false, ""⟩ (by decide) rfl rfl (by decide)
  · have h := c8_conversion_failure.2.2 posLoadedBad 0 ⟨"xyz", "ARG_1"⟩
      (by decide) (by decide) (by decide)
    rw [h]
    decide

/-! Character facts used for claim C9 -/

theorem hexDigit_not_ws {c : Char} (hc : isHexDigitB c = true) : isWsB c = false := by
  by_contra hw
  rw [Bool.not_eq_false] at hw
  unfold isWsB at hw
  simp only [Bool.or_eq_true, beq_iff_eq] at hw
  rcases hw with ((((h | h) | h) | h) | h) | h <;> (subst h; revert hc; decide)

theorem hexDigit_ne_dash {c : Char} (hc : isHexDigitB c = true) : (c == '-') = false := by
  by_contra h
  rw [Bool.not_eq_false, beq_iff_eq] at h
  subst h
  revert hc
  decide

theorem hexDigit_ne_plus {c : Char} (hc : isHexDigitB c = true) : (c == '+') = false := by
  by_contra h
  rw [Bool.not_eq_false, beq_iff_eq] at h
  subst h
  revert hc
  decide

theorem hexDigit_ne_xX {c : Char} (hc : isHexDigitB c = true) :
    (c == 'x' || c == 'X') = false := by
  have hx : (c == 'x') = false := by
    by_contra h
    rw [Bool.not_eq_false, beq_iff_eq] at h
    subst h
    revert hc
    decide
  have hX : (c == 'X') = false := by
    by_contra h
    rw [Bool.not_eq_false, beq_iff_eq] at h
    subst h
    revert hc
    decide
  rw [hx, hX]
  rfl

theorem takeWhile_of_all {p : Char → Bool} :
    ∀ {l : List Char}, (∀ c ∈ l, p c = true) → l.takeWhile p = l := by
  intro l h
  induction l with
  | nil => rfl
  | cons a t ih =>
    rw [List.takeWhile_cons, h a (List.mem_cons_self a t)]
    simp only [if_true]
    rw [ih (fun c hc => h c (List.mem_cons_of_mem a hc))]

theorem dropHex0x_of_all_hex {ds : List Char} (h : ∀ c ∈ ds, isHexDigitB c = true) :
    dropHex0x ds = ds := by
  rcases ds with _ | ⟨a, _ | ⟨b, _ | ⟨d2, r⟩⟩⟩
  · rfl
  · rfl
  · rfl
  · have hb := hexDigit_ne_xX (h b (by simp))
    simp only [dropHex0x, hb]
    simp

theorem extractMag_of_all_hex {ds : List Char} (hne : ds ≠ [])
    (hds : ∀ c ∈ ds, isHexDigitB c = true) :
    extractMag true ds = some (digitsValN 16 ds) := by
  simp only [extractMag, if_true]
  rw [dropHex0x_of_all_hex hds, takeWhile_of_all hds, if_neg hne]

theorem extractMag_hex_prefixed {ds : List Char} (hne : ds ≠ [])
    (hds : ∀ c ∈ ds, isHexDigitB c = true) :
    extractMag true ('0' :: 'x' :: ds) = some (digitsValN 16 ds) := by
  obtain ⟨d0, t, rfl⟩ : ∃ d0 t, ds = d0 :: t := by
    cases ds with
    | nil => exact absurd rfl hne
    | cons d0 t => exact ⟨d0, t, rfl⟩
  simp only [extractMag, if_true]
  have hdrop : dropHex0x ('0' :: 'x' :: d0 :: t) = d0 :: t := by
    simp only [dropHex0x]
    rw [hds d0 (by simp)]
    simp
  rw [hdrop, takeWhile_of_all hds, if_neg hne]

theorem extractInt_hex_digits {ds : List Char} (hne : ds ≠ [])
    (hds : ∀ c ∈ ds, isHexDigitB c = true) :
    extractInt true (String.mk ds) = some ((digitsValN 16 ds : Nat) : Int) := by
  obtain ⟨d0, t, rfl⟩ : ∃ d0 t, ds = d0 :: t := by
    cases ds with
    | nil => exact absurd rfl hne
    | cons d0 t => exact ⟨d0, t, rfl⟩
  have h0 : isHexDigitB d0 = true := hds d0 (by simp)
  unfold extractInt
  show (match (d0 :: t).dropWhile isWsB with
    | [] => none
    | c :: r =>
      if c == '-' then (extractMag true r).map (fun n => -(n : Int))
      else if c == '+' then (extractMag true r).map (fun n => (n : Int))
      else (extractMag true (c :: r)).map (fun n => (n : Int))) = _
  rw [List.dropWhile_cons, hexDigit_not_ws h0]
  simp only [Bool.false_eq_true, if_false]
  rw [hexDigit_ne_dash h0, hexDigit_ne_plus h0]
  simp only [Bool.false_eq_true, if_false]
  rw [extractMag_of_all_hex hne hds]
  rfl

theorem extractInt_hex_prefixed {ds : List Char} (hne : ds ≠ [])
    (hds : ∀ c ∈ ds, isHexDigitB c = true) :
    extractInt true (String.mk ('0' :: 'x' :: ds))
      = some ((digitsValN 16 ds : Nat) : Int) := by
  unfold extractInt
  show (match ('0' :: 'x' :: ds).dropWhile isWsB with
    | [] => none
    | c :: r =>
      if c == '-' then (extractMag true r).map (fun n => -(n : Int))
      else if c == '+' then (extractMag true r).map (fun n => (n : Int))
      else (extractMag true (c :: r)).map (fun n => (n : Int))) = _
  rw [List.dropWhile_cons]
  rw [show isWsB '0' = false from by decide]
  simp only [Bool.false_eq_true, if_false]
  rw [show ('0' == '-') = false from by decide, show ('0' == '+') = false from by decide]
  simp only [Bool.false_eq_true, if_false]
  rw [extractMag_hex_prefixed hne hds]
  rfl

/-! Claim C9 -/

/-- Claim C9: for every resolved, set option declared HEX, `parse_option`
interprets the stored value as a base-16 integer (the Horner fold
`digitsValN 16` over its hexadecimal digits), accepting the digit string
with or without a leading `0x`. -/
theorem c9_hex_parse (p : ArgumentParser) (name : String) (k : ArgKey) (o : ArgOpt)
    (ds : List Char)
    (hfind : findOptionByName p.options name = some (k, o))
    (hset : o.is_set = true) (hty : o.type = .HEX)
    (hne : ds ≠ []) (hds : ∀ c ∈ ds, isHexDigitB c = true)
    (hv : o.value = String.mk ds ∨ o.value = String.mk ('0' :: 'x' :: ds)) :
    parse_option_int p name = .ok ((digitsValN 16 ds : Nat) : Int) := by
  unfold parse_option_int
  rw [hfind]
  dsimp only
  rw [hset, if_pos rfl, hty]
  dsimp only
  rcases hv with hv | hv <;> rw [hv]
  · rw [extractInt_hex_digits hne hds]
    rfl
  · rw [extractInt_hex_prefixed hne hds]
    rfl

/-- The parser state after `./prog --hex FF`. -/
def hexLoadedFF : ArgumentParser :=
  (load_arguments hexSchema ["prog", "--hex", "FF"]).toOption.getD freshParser

/-- The parser state after `./prog --hex 0xFF`. -/
def hexLoadedPrefixed : ArgumentParser :=
  (load_arguments hexSchema ["prog", "--hex", "0xFF"]).toOption.getD freshParser

theorem c9_hex_parse_witness :
    parse_option_int hexLoadedFF "hex" = .ok 255
    ∧ parse_option_int hexLoadedPrefixed "hex" = .ok 255 := by
  constructor
  · have h := c9_hex_parse hexLoadedFF "hex" ⟨"", "hex"⟩ ⟨"FF", .HEX, true, false, ""⟩
      ['F', 'F'] (by decide) rfl rfl (by decide) (by decide) (Or.inl (by decide))
    rw [h]
    decide
  · have h := c9_hex_parse hexLoadedPrefixed "hex" ⟨"", "hex"⟩ ⟨"0xFF", .HEX, true, false, ""⟩
      ['F', 'F'] (by decide) rfl rfl (by decide) (by decide) (Or.inr (by decide))
    rw [h]
    decide

/-! Claim C10 -/

/-- Claim C10: `parse_option<bool>` on an option declared BOOL returns
exactly the option's `is_set` flag — the stored value string is never
consulted (the quantification over `o` covers every value string) — and
registering with a default value string, whatever it is, sets `is_set`
(and `has_default`) at construction, which is why a BOOL option with
default "false" or "0" already parses as true before any binding. -/
theorem c10_bool_returns_is_set :
    (∀ (p : ArgumentParser) (name : String) (k : ArgKey) (o : ArgOpt),
      findOptionByName p.options name = some (k, o) → o.type = .BOOL →
      parse_option_bool p name = .ok o.is_set)
    ∧ (∀ (dv : String) (ty : ArgumentType) (d : String),
        (mkArgOpt (some dv) ty d).is_set = true
        ∧ (mkArgOpt (some dv) ty d).has_default = true) := by
  constructor
  · intro p name k o hfind hty
    unfold parse_option_bool
    rw [hfind]
    dsimp only
    by_cases hset : o.is_set = true
    · rw [hset, if_pos rfl, hty]
    · have hf : o.is_set = false := by
        revert hset
        cases o.is_set <;> simp
      rw [hf]
      simp
  · intro dv ty d
    exact ⟨rfl, rfl⟩

/-- A BOOL option registered with the default value string "false". -/
def boolDefaultSchema : ArgumentParser :=
  (registerOption freshParser ⟨"v", ""⟩ .OPTIONAL .BOOL "" "" (some "false")).1

theorem c10_bool_returns_is_set_witness :
    parse_option_bool boolDefaultSchema "v" = .ok true :=
  c10_bool_returns_is_set.1 boolDefaultSchema "v" ⟨"v", ""⟩
    ⟨"false", .BOOL, true, true, ""⟩ (by decide) rfl
